import Mathlib

/-!
Verification of the Comics API backend (`src/main.py`).

The development shallowly embeds the route handlers, the serialization
helper, the response schema and the demo dataset of `main.py`.  The
`database` and `schemas` modules are imported by `main.py` but are not part
of the sources; the definitions standing in for them are marked
`Modelled from the spec:` and follow the specification text.
-/

namespace Comics

/-- A Python value as it occurs in this program: strings, numbers (the
program performs no float arithmetic, so numerics are embedded as `ℚ`),
`None`, lists, nested dicts, BSON object identifiers, datetime objects
(which have `isoformat`) and opaque objects without `isoformat`. -/
inductive PyVal where
  | vStr (s : String)
  | vNum (q : ℚ)
  | vNone
  | vList (xs : List PyVal)
  | vDict (entries : List (String × PyVal))
  | vOid (hex : String)
  | vDatetime (iso : String)
  | vOpaque (tag : String)
  deriving Repr

namespace PyVal

/-- Structural decidable equality for `PyVal`. -/
def beq : PyVal → PyVal → Bool
  | vStr a, vStr b => a == b
  | vNum a, vNum b => a == b
  | vNone, vNone => true
  | vList a, vList b =>
      let rec beqList : List PyVal → List PyVal → Bool
        | [], [] => true
        | x :: xs, y :: ys => beq x y && beqList xs ys
        | _, _ => false
      beqList a b
  | vDict a, vDict b =>
      let rec beqEntries : List (String × PyVal) → List (String × PyVal) → Bool
        | [], [] => true
        | (k, x) :: xs, (l, y) :: ys => k == l && beq x y && beqEntries xs ys
        | _, _ => false
      beqEntries a b
  | vOid a, vOid b => a == b
  | vDatetime a, vDatetime b => a == b
  | vOpaque a, vOpaque b => a == b
  | _, _ => false

instance : BEq PyVal := ⟨beq⟩

/-- `hasattr(v, "isoformat")`: in this program only datetime values
support ISO-8601 conversion. -/
def hasIsoformat : PyVal → Bool
  | vDatetime _ => true
  | _ => false

/-- `v.isoformat()` on a datetime value. -/
def isoformat : PyVal → PyVal
  | vDatetime iso => vStr iso
  | v => v

/-- `str(v)` as used by `serialize_document` on the native identifier. -/
def pyStr : PyVal → String
  | vStr s => s
  | vOid hex => hex
  | vNone => "None"
  | _ => "<object>"

end PyVal

/-- A Python dict: an insertion-ordered association list with unique keys,
matching CPython's dict semantics for the operations the program uses. -/
abbrev Dict := List (String × PyVal)

namespace Dict

/-- Key lookup (`d[k]` / `d.get(k)`). -/
def get? (d : Dict) (k : String) : Option PyVal :=
  match d with
  | [] => none
  | (k', v) :: rest => if k' = k then some v else get? rest k

/-- `k in d`. -/
def hasKey (d : Dict) (k : String) : Bool :=
  (d.get? k).isSome

/-- `d[k] = v`: replace in place when the key exists, else append. -/
def set (d : Dict) (k : String) (v : PyVal) : Dict :=
  match d with
  | [] => [(k, v)]
  | (k', v') :: rest => if k' = k then (k', v) :: rest else (k', v') :: set rest k v

/-- `d.pop(k)`: remove the entry for `k`. -/
def pop (d : Dict) (k : String) : Dict :=
  match d with
  | [] => []
  | (k', v') :: rest => if k' = k then rest else (k', v') :: pop rest k

/-- The keys of the dict, in insertion order. -/
def keys (d : Dict) : List String :=
  d.map Prod.fst

end Dict

/-- One timestamp step of `serialize_document`:
`if k in out and hasattr(out[k], "isoformat"): out[k] = out[k].isoformat()`. -/
def convertTimestamp (out : Dict) (k : String) : Dict :=
  match out.get? k with
  | some v => if v.hasIsoformat then out.set k v.isoformat else out
  | none => out

/-- `serialize_document` from `main.py`: copy the document, rename `_id`
to `id` (stringified), and render each of `created_at` / `updated_at`
as an ISO-8601 string when the value supports that conversion. -/
def serialize_document (doc : Dict) : Dict :=
  let out := doc
  let out :=
    match out.get? "_id" with
    | some v => (out.pop "_id").set "id" (PyVal.vStr v.pyStr)
    | none => out
  let out := convertTimestamp out "created_at"
  let out := convertTimestamp out "updated_at"
  out

/-- The `ComicResponse` pydantic model of `main.py`: the exact field list
used as `response_model` for the read endpoints. -/
structure ComicResponse where
  id : String
  title : String
  author : String
  genre : String
  description : Option String := none
  cover_url : Option String := none
  rating : Option ℚ := none
  tags : Option (List String) := none
  deriving Repr, DecidableEq

namespace ComicResponse

/-- Read a required `str` field: absent or non-string values make pydantic
validation fail. -/
def reqStr (d : Dict) (k : String) : Except String String :=
  match d.get? k with
  | some (PyVal.vStr s) => Except.ok s
  | some _ => Except.error (k ++ ": not a string")
  | none => Except.error (k ++ ": field required")

/-- Read an `Optional[str]` field: absent or `None` gives `none`. -/
def optStr (d : Dict) (k : String) : Except String (Option String) :=
  match d.get? k with
  | some (PyVal.vStr s) => Except.ok (some s)
  | some PyVal.vNone => Except.ok none
  | some _ => Except.error (k ++ ": not a string")
  | none => Except.ok none

/-- Read the `Optional[float]` field `rating`. -/
def optNum (d : Dict) (k : String) : Except String (Option ℚ) :=
  match d.get? k with
  | some (PyVal.vNum q) => Except.ok (some q)
  | some PyVal.vNone => Except.ok none
  | some _ => Except.error (k ++ ": not a number")
  | none => Except.ok none

/-- Read the `Optional[List[str]]` field `tags`. -/
def optStrList (d : Dict) (k : String) : Except String (Option (List String)) :=
  match d.get? k with
  | some (PyVal.vList xs) =>
      let rec allStr : List PyVal → Except String (List String)
        | [] => Except.ok []
        | PyVal.vStr s :: rest => (allStr rest).map (s :: ·)
        | _ :: _ => Except.error (k ++ ": not a string list")
      (allStr xs).map some
  | some PyVal.vNone => Except.ok none
  | some _ => Except.error (k ++ ": not a list")
  | none => Except.ok none

/-- `ComicResponse(**kwargs)`: pydantic construction from keyword
arguments.  Required fields must be present as strings; optional fields
default to `None`; keys outside the model (such as `created_at`) are
ignored, pydantic's default `extra` policy. -/
def ofDict (d : Dict) : Except String ComicResponse :=
  match reqStr d "id" with
  | Except.error e => Except.error e
  | Except.ok id =>
  match reqStr d "title" with
  | Except.error e => Except.error e
  | Except.ok title =>
  match reqStr d "author" with
  | Except.error e => Except.error e
  | Except.ok author =>
  match reqStr d "genre" with
  | Except.error e => Except.error e
  | Except.ok genre =>
  match optStr d "description" with
  | Except.error e => Except.error e
  | Except.ok description =>
  match optStr d "cover_url" with
  | Except.error e => Except.error e
  | Except.ok cover_url =>
  match optNum d "rating" with
  | Except.error e => Except.error e
  | Except.ok rating =>
  match optStrList d "tags" with
  | Except.error e => Except.error e
  | Except.ok tags =>
  Except.ok ⟨id, title, author, genre, description, cover_url, rating, tags⟩

/-- `model_dump()` / response-model serialization: a JSON object holding
exactly the model's fields, in declaration order, with `None` for absent
optionals. -/
def toDict (r : ComicResponse) : Dict :=
  [ ("id", PyVal.vStr r.id),
    ("title", PyVal.vStr r.title),
    ("author", PyVal.vStr r.author),
    ("genre", PyVal.vStr r.genre),
    ("description", (r.description.map PyVal.vStr).getD PyVal.vNone),
    ("cover_url", (r.cover_url.map PyVal.vStr).getD PyVal.vNone),
    ("rating", (r.rating.map PyVal.vNum).getD PyVal.vNone),
    ("tags", (r.tags.map (fun ts => PyVal.vList (ts.map PyVal.vStr))).getD PyVal.vNone) ]

end ComicResponse

/-- Modelled from the spec: the `Comic` write schema lives in the missing
`schemas` module; §4.2 makes `title`, `author`, `genre` required and
`description`, `cover_url`, `rating`, `tags` optional, with no
business-rule validation.  `ComicCreate` in `main.py` subclasses it
without change. -/
structure ComicCreate where
  title : String
  author : String
  genre : String
  description : Option String := none
  cover_url : Option String := none
  rating : Option ℚ := none
  tags : Option (List String) := none
  deriving Repr, DecidableEq

/-- Modelled from the spec: request-body validation of `POST /api/comics`
against the write schema — a body missing a required field fails
validation before reaching the store adapter. -/
def ComicCreate.ofDict (d : Dict) : Except String ComicCreate :=
  match ComicResponse.reqStr d "title" with
  | Except.error e => Except.error e
  | Except.ok title =>
  match ComicResponse.reqStr d "author" with
  | Except.error e => Except.error e
  | Except.ok author =>
  match ComicResponse.reqStr d "genre" with
  | Except.error e => Except.error e
  | Except.ok genre =>
  match ComicResponse.optStr d "description" with
  | Except.error e => Except.error e
  | Except.ok description =>
  match ComicResponse.optStr d "cover_url" with
  | Except.error e => Except.error e
  | Except.ok cover_url =>
  match ComicResponse.optNum d "rating" with
  | Except.error e => Except.error e
  | Except.ok rating =>
  match ComicResponse.optStrList d "tags" with
  | Except.error e => Except.error e
  | Except.ok tags =>
  Except.ok ⟨title, author, genre, description, cover_url, rating, tags⟩

/-- The dict a `ComicCreate` payload turns into when written to the
store (the document shape of §6: the Comic shape plus store-assigned
fields added by the adapter). -/
def ComicCreate.toDict (p : ComicCreate) : Dict :=
  [ ("title", PyVal.vStr p.title),
    ("author", PyVal.vStr p.author),
    ("genre", PyVal.vStr p.genre),
    ("description", (p.description.map PyVal.vStr).getD PyVal.vNone),
    ("cover_url", (p.cover_url.map PyVal.vStr).getD PyVal.vNone),
    ("rating", (p.rating.map PyVal.vNum).getD PyVal.vNone),
    ("tags", (p.tags.map (fun ts => PyVal.vList (ts.map PyVal.vStr))).getD PyVal.vNone) ]

/-- `_demo_comics()` from `main.py`: the static fallback dataset,
recreated fresh each call. -/
def _demo_comics : List Dict :=
  [ [ ("id", PyVal.vStr "demo-1"),
      ("title", PyVal.vStr "Nova City: Neon Nights"),
      ("author", PyVal.vStr "A. Sterling"),
      ("genre", PyVal.vStr "Sci-Fi"),
      ("description", PyVal.vStr
        "A rogue courier races through a glowing mega-city to stop a sentient virus."),
      ("cover_url", PyVal.vStr
        "https://images.unsplash.com/photo-1534088568595-a066f410bcda?q=80&w=1200&auto=format&fit=crop"),
      ("rating", PyVal.vNum 4.8),
      ("tags", PyVal.vList [PyVal.vStr "cyberpunk", PyVal.vStr "action", PyVal.vStr "future"]) ],
    [ ("id", PyVal.vStr "demo-2"),
      ("title", PyVal.vStr "Arcane Academy"),
      ("author", PyVal.vStr "M. Kato"),
      ("genre", PyVal.vStr "Fantasy"),
      ("description", PyVal.vStr
        "A misfit mage uncovers a conspiracy at a floating academy of spells."),
      ("cover_url", PyVal.vStr
        "https://images.unsplash.com/photo-1549880338-65ddcdfd017b?q=80&w=1200&auto=format&fit=crop"),
      ("rating", PyVal.vNum 4.6),
      ("tags", PyVal.vList [PyVal.vStr "magic", PyVal.vStr "school", PyVal.vStr "adventure"]) ],
    [ ("id", PyVal.vStr "demo-3"),
      ("title", PyVal.vStr "Starlight Rangers"),
      ("author", PyVal.vStr "J. Vega"),
      ("genre", PyVal.vStr "Adventure"),
      ("description", PyVal.vStr
        "Five unlikely heroes chart the unknown between galaxies."),
      ("cover_url", PyVal.vStr
        "https://images.unsplash.com/photo-1472214103451-9374bd1c798e?q=80&w=1200&auto=format&fit=crop"),
      ("rating", PyVal.vNum 4.7),
      ("tags", PyVal.vList [PyVal.vStr "space", PyVal.vStr "team", PyVal.vStr "epic"]) ],
    [ ("id", PyVal.vStr "demo-4"),
      ("title", PyVal.vStr "Crimson Streets"),
      ("author", PyVal.vStr "L. Noir"),
      ("genre", PyVal.vStr "Noir"),
      ("description", PyVal.vStr
        "A masked detective hunts the truth in rain-soaked alleys."),
      ("cover_url", PyVal.vStr
        "https://images.unsplash.com/photo-1501785888041-af3ef285b470?q=80&w=1200&auto=format&fit=crop"),
      ("rating", PyVal.vNum 4.4),
      ("tags", PyVal.vList [PyVal.vStr "mystery", PyVal.vStr "crime", PyVal.vStr "vigilante"]) ] ]

/-- Modelled from the spec: the store adapter lives in the missing
`database` module (§4.1).  The state is the single `comic` collection —
an ordered sequence of raw documents — plus the store's counter for
fresh native identifiers (opaque, store-generated). -/
structure Store where
  documents : List Dict
  nextOid : Nat
  deriving Repr

/-- A fresh native identifier rendered as a 24-character hex string. -/
def freshOid (n : Nat) : String :=
  let digits := Nat.toDigits 16 n
  ⟨List.replicate (24 - digits.length) '0' ++ digits⟩

/-- `bson.ObjectId(s)` accepts exactly a 24-character hexadecimal string
(when given a string); anything else raises `InvalidId`. -/
def isHexChar (c : Char) : Bool :=
  c.isDigit || ('a' ≤ c && c ≤ 'f') || ('A' ≤ c && c ≤ 'F')

/-- Whether `ObjectId(comic_id)` succeeds. -/
def validObjectId (s : String) : Bool :=
  s.length == 24 && s.toList.all isHexChar

/-- Modelled from the spec: `create_document(collection, data) -> id`
inserts a new document into the collection and returns the newly assigned
identifier as a string (§4.1, §6: the persisted document is the data plus
the store-assigned identifier). -/
def create_document (st : Store) (data : Dict) : String × Store :=
  let id := freshOid st.nextOid
  (id, ⟨st.documents ++ [data.set "_id" (PyVal.vOid id)], st.nextOid + 1⟩)

/-- ASCII lower-casing of one character — the case folding the `i`
regex option applies (it folds `[A-Za-z]` only). -/
def lowerChar (c : Char) : Char :=
  if 'A' ≤ c ∧ c ≤ 'Z' then Char.ofNat (c.toNat + 32) else c

/-- Whether the first character list is a prefix of the second. -/
def headMatches : List Char → List Char → Bool
  | [], _ => true
  | _ :: _, [] => false
  | p :: ps, c :: cs => p == c && headMatches ps cs

/-- Whether `pat` occurs as a contiguous run inside `s`. -/
def occursIn (pat : List Char) : List Char → Bool
  | [] => headMatches pat []
  | c :: rest => headMatches pat (c :: rest) || occursIn pat rest

/-- Case-insensitive substring containment: `pat` occurs inside `s` after
ASCII case folding of both. -/
def containsCI (s pat : String) : Bool :=
  occursIn (pat.data.map lowerChar) (s.data.map lowerChar)

/-- Modelled from the spec: evaluation of one filter condition by the
store.  The only conditions this service builds are an exact-value match
and `\x7b"$regex": q, "$options": "i"\x7d` on `title`, which the spec
describes as a case-insensitive substring match against `title` for the
supplied `q` (§4.3). -/
def matchesCond (doc : Dict) (k : String) (cond : PyVal) : Bool :=
  match cond with
  | PyVal.vDict op =>
      match Dict.get? op "$regex", Dict.get? doc k with
      | some (PyVal.vStr pat), some (PyVal.vStr s) => containsCI s pat
      | _, _ => false
  | v => Dict.get? doc k == some v

/-- A document matches a filter when it satisfies every condition. -/
def matchesFilt (filt : Dict) (doc : Dict) : Bool :=
  filt.all fun kc => matchesCond doc kc.1 kc.2

/-- Modelled from the spec: `get_documents(collection, filter, limit)`
returns up to `limit` documents matching `filter`, in the store's stable
default order; no match yields the empty sequence, never an error
(§4.1). -/
def get_documents (st : Store) (filt : Dict) (limit : Nat) : List Dict :=
  (st.documents.filter (matchesFilt filt)).take limit

/-- `db["comic"].count_documents(\x7b\x7d)`: the collection size. -/
def count_documents (st : Store) : Nat :=
  st.documents.length

/-- `db["comic"].find_one(\x7b"_id": ObjectId(comic_id)\x7d)`: the first
document whose native identifier equals the given one. -/
def find_one (st : Store) (oid : String) : Option Dict :=
  st.documents.find? fun d => Dict.get? d "_id" == some (PyVal.vOid oid)

/-- Outcome of a request: a JSON body or an HTTP error status with
detail. -/
inductive HttpResult (α : Type) where
  | ok (body : α)
  | error (status : Nat) (detail : String)
  deriving Repr, DecidableEq

namespace HttpResult

/-- Whether the request succeeded. -/
def isOk {α : Type} : HttpResult α → Bool
  | ok _ => true
  | error _ _ => false

end HttpResult

/-- An exception inside a handler body: FastAPI's `HTTPException`,
`bson.errors.InvalidId` from `ObjectId`, or a pydantic validation error —
all of them subclasses of `Exception`. -/
inductive Exn where
  | http (status : Nat) (detail : String)
  | invalidId
  | validation (msg : String)
  deriving Repr, DecidableEq

/-- Render a list of raw dicts through `ComicResponse`, as the list
endpoint's comprehension does, left to right; a pydantic failure on any
element is an uncaught exception (HTTP 500). -/
def renderAll : List Dict → Except String (List Dict)
  | [] => Except.ok []
  | c :: rest =>
      match ComicResponse.ofDict c with
      | Except.error e => Except.error e
      | Except.ok r =>
          match renderAll rest with
          | Except.error e => Except.error e
          | Except.ok tail => Except.ok (r.toDict :: tail)

/-- Which store calls inside the seeding `try` block of `list_comics`
raise: the `count_documents` call, and each `create_document` call of the
seeding loop by position. -/
structure SeedFaults where
  countRaises : Bool
  createRaises : Nat → Bool

/-- The fault schedule on which no store call raises. -/
def SeedFaults.none : SeedFaults := ⟨false, fun _ => false⟩

/-- The seeding loop `for c in _demo_comics(): create_document("comic", c)`:
a raising call aborts the loop, the exception propagating to the
surrounding `except`. -/
def seedLoop (f : SeedFaults) : Nat → List Dict → Store → Store
  | _, [], st => st
  | i, c :: rest, st =>
      if f.createRaises i then st
      else seedLoop f (i + 1) rest (create_document st c).2

/-- The seed-if-empty `try` block of `list_comics`: count the collection,
seed it with the demo records when empty; `except Exception: pass`
absorbs any error, the read proceeding on whatever state the collection
ends up in. -/
def runSeed (f : SeedFaults) (st : Store) : Store :=
  if f.countRaises then st
  else if count_documents st == 0 then seedLoop f 0 _demo_comics st
  else st

/-- The filter dict built by `list_comics`: a case-insensitive `$regex`
condition on `title` when `q` is truthy, an exact `genre` condition when
`genre` is truthy. -/
def buildFilter (q genre : Option String) : Dict :=
  let filt : Dict := []
  let filt :=
    match q with
    | some s =>
        if s ≠ "" then
          filt.set "title" (PyVal.vDict [("$regex", PyVal.vStr s), ("$options", PyVal.vStr "i")])
        else filt
    | Option.none => filt
  match genre with
  | some g => if g ≠ "" then filt.set "genre" (PyVal.vStr g) else filt
  | Option.none => filt

/-- The `list_comics` handler body (after query-parameter validation).
Returns the response together with the resulting store handle (explicit
state passing for the seeding side effect). -/
def list_comics (db : Option Store) (f : SeedFaults) (q genre : Option String)
    (limit : Nat) : HttpResult (List Dict) × Option Store :=
  match db with
  | Option.none =>
      match renderAll (_demo_comics.take limit) with
      | Except.ok body => (HttpResult.ok body, Option.none)
      | Except.error e => (HttpResult.error 500 e, Option.none)
  | some st =>
      let st := runSeed f st
      let filt := buildFilter q genre
      let docs := get_documents st filt limit
      match renderAll (docs.map serialize_document) with
      | Except.ok body => (HttpResult.ok body, some st)
      | Except.error e => (HttpResult.error 500 e, some st)

/-- FastAPI's validation of `limit: int = Query(24, ge=1, le=100)`:
omitted gives the default 24; a value outside `[1, 100]` fails request
validation with a 422 before the handler runs. -/
def validateLimit : Option Int → Except String Nat
  | Option.none => Except.ok 24
  | some l =>
      if 1 ≤ l ∧ l ≤ 100 then Except.ok l.toNat
      else Except.error "limit out of range"

/-- `GET /api/comics` including the framework's `limit` validation. -/
def list_comics_endpoint (db : Option Store) (f : SeedFaults)
    (q genre : Option String) (limitParam : Option Int) :
    HttpResult (List Dict) × Option Store :=
  match validateLimit limitParam with
  | Except.error e => (HttpResult.error 422 e, db)
  | Except.ok lim => list_comics db f q genre lim

/-- The `create_comic` handler body: 503 when the store handle is the
unavailable sentinel, else insert and answer with the new id. -/
def create_comic (db : Option Store) (payload : ComicCreate) :
    HttpResult Dict × Option Store :=
  match db with
  | Option.none => (HttpResult.error 503 "Database not available", Option.none)
  | some st =>
      let res := create_document st payload.toDict
      (HttpResult.ok [("id", PyVal.vStr res.1)], some res.2)

/-- `POST /api/comics` including the framework's body validation against
the write schema. -/
def create_comic_endpoint (db : Option Store) (body : Dict) :
    HttpResult Dict × Option Store :=
  match ComicCreate.ofDict body with
  | Except.error e => (HttpResult.error 422 e, db)
  | Except.ok payload => create_comic db payload

/-- The `try` block of `get_comic`'s store branch, translated statement
by statement: construct the `ObjectId`, look the document up, raise
`HTTPException(404)` when absent, else build the response (a pydantic
failure there is also an exception). -/
def get_comic_tryBody (st : Store) (comic_id : String) : Except Exn Dict :=
  if validObjectId comic_id then
    match find_one st comic_id with
    | Option.none => Except.error (Exn.http 404 "Comic not found")
    | some doc =>
        match ComicResponse.ofDict (serialize_document doc) with
        | Except.ok r => Except.ok r.toDict
        | Except.error e => Except.error (Exn.validation e)
  else Except.error Exn.invalidId

/-- `GET /api/comics/\x7bcomic_id\x7d`: demo linear scan when the store
is unavailable; otherwise the `try` block above with
`except Exception: raise HTTPException(400, "Invalid comic id")`, which
catches every exception the block raises — the 404 `HTTPException`
included, since `HTTPException` subclasses `Exception`. -/
def get_comic (db : Option Store) (comic_id : String) : HttpResult Dict :=
  match db with
  | Option.none =>
      match _demo_comics.find? (fun c => Dict.get? c "id" == some (PyVal.vStr comic_id)) with
      | some c =>
          match ComicResponse.ofDict c with
          | Except.ok r => HttpResult.ok r.toDict
          | Except.error e => HttpResult.error 500 e
      | Option.none => HttpResult.error 404 "Comic not found"
  | some st =>
      match get_comic_tryBody st comic_id with
      | Except.ok body => HttpResult.ok body
      | Except.error _ => HttpResult.error 400 "Invalid comic id"

/-! ## A heap-level rendering of `serialize_document`

To state that `serialize_document` never mutates its argument, the
function body is replayed over an explicit heap of dict objects:
references are indices, `doc.copy()` allocates, and each assignment
writes through the `out` reference only — exactly the statements of the
source. -/

/-- A heap of Python dict objects. -/
abbrev Heap := List Dict

/-- Dereference. -/
def Heap.read (h : Heap) (r : Nat) : Dict :=
  (h.get? r).getD []

/-- In-place update of the object behind a reference. -/
def Heap.write (h : Heap) (r : Nat) (d : Dict) : Heap :=
  h.set r d

/-- Allocate a fresh object, returning its reference. -/
def Heap.alloc (h : Heap) (d : Dict) : Heap × Nat :=
  (h ++ [d], h.length)

/-- `serialize_document`, statement by statement over the heap:
`out = doc.copy()` allocates a fresh dict with `doc`'s entries, and every
subsequent mutation (`out["id"] = str(out.pop("_id"))`, the timestamp
assignments) writes through the `out` reference. -/
def serialize_document_heap (h : Heap) (docRef : Nat) : Heap × Nat :=
  let allocd := Heap.alloc h (Heap.read h docRef)
  let h := allocd.1
  let outRef := allocd.2
  let h :=
    match (Heap.read h outRef).get? "_id" with
    | some v =>
        Heap.write h outRef
          (((Heap.read h outRef).pop "_id").set "id" (PyVal.vStr v.pyStr))
    | Option.none => h
  let h := Heap.write h outRef (convertTimestamp (Heap.read h outRef) "created_at")
  let h := Heap.write h outRef (convertTimestamp (Heap.read h outRef) "updated_at")
  (h, outRef)

/-! ## Dictionary lemmas -/

/-- A key outside the key list is absent. -/
theorem Dict.get?_eq_none {d : Dict} {k : String} (h : k ∉ d.keys) :
    d.get? k = Option.none := by
  induction d with
  | nil => rfl
  | cons kv rest ih =>
      obtain ⟨a, b⟩ := kv
      simp only [Dict.keys, List.map_cons, List.mem_cons, not_or] at h
      have hne : a ≠ k := fun e => h.1 e.symm
      simp only [Dict.get?, if_neg hne]
      exact ih h.2

/-- Setting a key makes it readable. -/
theorem Dict.get?_set_self (d : Dict) (k : String) (v : PyVal) :
    (d.set k v).get? k = some v := by
  induction d with
  | nil => simp [Dict.set, Dict.get?]
  | cons kv rest ih =>
      obtain ⟨a, b⟩ := kv
      by_cases h : a = k
      · simp [Dict.set, Dict.get?, h]
      · simp [Dict.set, Dict.get?, h, ih]

/-- Setting one key leaves the others unchanged. -/
theorem Dict.get?_set_ne (d : Dict) {k k' : String} (v : PyVal) (h : k' ≠ k) :
    (d.set k v).get? k' = d.get? k' := by
  have hkk : k ≠ k' := Ne.symm h
  induction d with
  | nil => simp [Dict.set, Dict.get?, hkk]
  | cons kv rest ih =>
      obtain ⟨a, b⟩ := kv
      by_cases hk : a = k
      · subst hk
        simp [Dict.set, Dict.get?, hkk]
      · by_cases hk' : a = k'
        · simp [Dict.set, Dict.get?, hk, hk', h, hkk]
        · simp [Dict.set, Dict.get?, hk, hk', ih]

/-- Popping one key leaves the others unchanged. -/
theorem Dict.get?_pop_ne (d : Dict) {k k' : String} (h : k' ≠ k) :
    (d.pop k).get? k' = d.get? k' := by
  induction d with
  | nil => rfl
  | cons kv rest ih =>
      obtain ⟨a, b⟩ := kv
      by_cases hk : a = k
      · have ha : ¬k = k' := Ne.symm h
        simp [Dict.pop, Dict.get?, hk, ha]
      · by_cases hk' : a = k'
        · simp [Dict.pop, Dict.get?, hk, hk', h]
        · simp [Dict.pop, Dict.get?, hk, hk', ih]

/-- With unique keys — CPython's dict invariant — popping a key removes
it. -/
theorem Dict.get?_pop_self {d : Dict} (k : String) (h : d.keys.Nodup) :
    (d.pop k).get? k = Option.none := by
  induction d with
  | nil => rfl
  | cons kv rest ih =>
      obtain ⟨a, b⟩ := kv
      simp only [Dict.keys, List.map_cons, List.nodup_cons] at h
      by_cases hk : a = k
      · subst hk
        simp only [Dict.pop, if_pos rfl]
        exact Dict.get?_eq_none (by simpa [Dict.keys] using h.1)
      · simp only [Dict.pop, if_neg hk, Dict.get?, if_neg hk]
        exact ih h.2

/-- Setting a fresh key then popping it restores the dict. -/
theorem Dict.set_pop_of_absent {d : Dict} {k : String}
    (h : d.get? k = Option.none) (v : PyVal) : (d.set k v).pop k = d := by
  induction d with
  | nil => simp [Dict.set, Dict.pop]
  | cons kv rest ih =>
      obtain ⟨a, b⟩ := kv
      by_cases hk : a = k
      · simp [Dict.get?, hk] at h
      · simp only [Dict.get?, if_neg hk] at h
        simp [Dict.set, Dict.pop, hk, ih h]

/-- `convertTimestamp` touches only its own key. -/
theorem convertTimestamp_get?_ne (d : Dict) {k k' : String} (h : k' ≠ k) :
    (convertTimestamp d k).get? k' = d.get? k' := by
  unfold convertTimestamp
  cases hv : d.get? k with
  | none => rfl
  | some v =>
      by_cases hiso : v.hasIsoformat
      · simp [hiso, Dict.get?_set_ne _ _ h]
      · simp [hiso]

/-- `serialize_document` leaves every key other than `_id`, `id`,
`created_at`, `updated_at` unchanged. -/
theorem serialize_document_get?_other (d : Dict) {k : String}
    (h1 : k ≠ "_id") (h2 : k ≠ "id") (h3 : k ≠ "created_at")
    (h4 : k ≠ "updated_at") :
    (serialize_document d).get? k = d.get? k := by
  unfold serialize_document
  cases hid : d.get? "_id" with
  | none =>
      simp only [hid]
      rw [convertTimestamp_get?_ne _ h4, convertTimestamp_get?_ne _ h3]
  | some v =>
      simp only [hid]
      rw [convertTimestamp_get?_ne _ h4, convertTimestamp_get?_ne _ h3,
        Dict.get?_set_ne _ _ h2, Dict.get?_pop_ne _ h1]

/-! ## Rendering lemmas -/

/-- A successful render has one response per document. -/
theorem renderAll_length {l b : List Dict} (h : renderAll l = Except.ok b) :
    b.length = l.length := by
  induction l generalizing b with
  | nil =>
      simp only [renderAll] at h
      cases h
      rfl
  | cons c rest ih =>
      unfold renderAll at h
      cases hc : ComicResponse.ofDict c with
      | error e => rw [hc] at h; cases h
      | ok r =>
          rw [hc] at h
          cases hr : renderAll rest with
          | error e => rw [hr] at h; cases h
          | ok tail =>
              rw [hr] at h
              cases h
              simp [ih hr]

/-- A successful render restricted to a prefix renders the prefix. -/
theorem renderAll_take {l b : List Dict} (h : renderAll l = Except.ok b)
    (n : Nat) : renderAll (l.take n) = Except.ok (b.take n) := by
  induction l generalizing b n with
  | nil =>
      simp only [renderAll] at h
      cases h
      simp [renderAll]
  | cons c rest ih =>
      unfold renderAll at h
      cases hc : ComicResponse.ofDict c with
      | error e => rw [hc] at h; cases h
      | ok r =>
          rw [hc] at h
          cases hr : renderAll rest with
          | error e => rw [hr] at h; cases h
          | ok tail =>
              rw [hr] at h
              cases h
              cases n with
              | zero => simp [renderAll]
              | succ m =>
                  simp only [List.take_succ_cons]
                  unfold renderAll
                  rw [hc, ih hr m]

/-- Every element of a successful render is the serialization of a
validated document of the input. -/
theorem renderAll_mem {l b : List Dict} (h : renderAll l = Except.ok b) :
    ∀ x ∈ b, ∃ c ∈ l, ∃ r, ComicResponse.ofDict c = Except.ok r ∧
      x = r.toDict := by
  induction l generalizing b with
  | nil =>
      simp only [renderAll] at h
      cases h
      intro x hx
      cases hx
  | cons c rest ih =>
      unfold renderAll at h
      cases hc : ComicResponse.ofDict c with
      | error e => rw [hc] at h; cases h
      | ok r =>
          rw [hc] at h
          cases hr : renderAll rest with
          | error e => rw [hr] at h; cases h
          | ok tail =>
              rw [hr] at h
              cases h
              intro x hx
              rcases List.mem_cons.mp hx with hx | hx
              · exact ⟨c, List.mem_cons_self _ _, r, hc, hx⟩
              · rcases ih hr x hx with ⟨c', hc', r', hr', hx'⟩
                exact ⟨c', List.mem_cons_of_mem _ hc', r', hr', hx'⟩

/-- When every document validates, the whole render succeeds. -/
theorem renderAll_isOk {l : List Dict}
    (h : ∀ c ∈ l, ∃ r, ComicResponse.ofDict c = Except.ok r) :
    ∃ b, renderAll l = Except.ok b := by
  induction l with
  | nil => exact ⟨[], rfl⟩
  | cons c rest ih =>
      rcases h c (List.mem_cons_self _ _) with ⟨r, hr⟩
      rcases ih (fun c' hc' => h c' (List.mem_cons_of_mem _ hc')) with ⟨tail, ht⟩
      refine ⟨r.toDict :: tail, ?_⟩
      unfold renderAll
      rw [hr, ht]

/-- Each demo record round-trips through `ComicResponse` unchanged: the
demo dicts carry exactly the model's fields, in declaration order. -/
theorem renderAll_demo : renderAll _demo_comics = Except.ok _demo_comics := rfl

/-- A required field read successfully is present as that string. -/
theorem ComicResponse.reqStr_ok {d : Dict} {k s : String}
    (h : ComicResponse.reqStr d k = Except.ok s) :
    Dict.get? d k = some (PyVal.vStr s) := by
  unfold ComicResponse.reqStr at h
  cases hg : Dict.get? d k with
  | none => rw [hg] at h; cases h
  | some v =>
      rw [hg] at h
      cases v with
      | vStr s0 => cases h; rfl
      | vNum q => cases h
      | vNone => cases h
      | vList xs => cases h
      | vDict es => cases h
      | vOid x => cases h
      | vDatetime x => cases h
      | vOpaque x => cases h

/-- A missing key fails the required-field read. -/
theorem ComicResponse.reqStr_missing {d : Dict} {k : String}
    (h : Dict.get? d k = Option.none) :
    ComicResponse.reqStr d k = Except.error (k ++ ": field required") := by
  unfold ComicResponse.reqStr
  rw [h]

/-- A validated response carries the document's `title`. -/
theorem ComicResponse.ofDict_title {d : Dict} {r : ComicResponse}
    (h : ComicResponse.ofDict d = Except.ok r) :
    Dict.get? d "title" = some (PyVal.vStr r.title) := by
  unfold ComicResponse.ofDict at h
  split at h
  · cases h
  · split at h
    · cases h
    · split at h
      · cases h
      · split at h
        · cases h
        · split at h
          · cases h
          · split at h
            · cases h
            · split at h
              · cases h
              · split at h
                · cases h
                · cases h
                  rename_i x1 a1 e1 x2 a2 e2 x3 a3 e3 x4 a4 e4 x5 a5 e5 x6 a6 e6 x7 a7 e7 x8 a8 e8
                  exact ComicResponse.reqStr_ok e2

/-- The demo fallback of `list_comics`: with the store handle `None`,
the handler answers the first `limit` demo records verbatim, whatever
`q` and `genre` say, touching no store. -/
theorem list_comics_demo (f : SeedFaults) (q genre : Option String) (limit : Nat) :
    list_comics Option.none f q genre limit =
      (HttpResult.ok (_demo_comics.take limit), Option.none) := by
  unfold list_comics
  rw [renderAll_take renderAll_demo limit]

/-- Any successful list response is capped by the limit. -/
theorem list_comics_body_length {db : Option Store} {f : SeedFaults}
    {q g : Option String} {lim : Nat} {body : List Dict}
    (h : (list_comics db f q g lim).1 = HttpResult.ok body) :
    body.length ≤ lim := by
  cases db with
  | none =>
      rw [list_comics_demo] at h
      cases h
      exact List.length_take_le lim _demo_comics
  | some st =>
      simp only [list_comics] at h
      cases hr : renderAll ((get_documents (runSeed f st) (buildFilter q g) lim).map
          serialize_document) with
      | error e => rw [hr] at h; cases h
      | ok b =>
          rw [hr] at h
          cases h
          have hlen := renderAll_length hr
          rw [hlen, List.length_map]
          exact List.length_take_le lim ((runSeed f st).documents.filter
            (matchesFilt (buildFilter q g)))

/-! ## Seeding lemmas -/

/-- A property of documents is preserved by the seeding loop when it
holds of the existing documents and of every demo record extended with a
store-assigned identifier. -/
theorem seedLoop_docs {f : SeedFaults} (P : Dict → Prop) :
    ∀ (rest : List Dict) (i : Nat) (st : Store),
      (∀ d ∈ st.documents, P d) →
      (∀ c ∈ rest, ∀ s, P (Dict.set c "_id" (PyVal.vOid s))) →
      ∀ d ∈ (seedLoop f i rest st).documents, P d := by
  intro rest
  induction rest with
  | nil =>
      intro i st h1 _ d hd
      exact h1 d hd
  | cons c cs ih =>
      intro i st h1 h2 d hd
      unfold seedLoop at hd
      by_cases hf : f.createRaises i
      · rw [if_pos hf] at hd
        exact h1 d hd
      · rw [if_neg hf] at hd
        refine ih (i + 1) _ ?_ (fun c' hc' s => h2 c' (List.mem_cons_of_mem _ hc') s) d hd
        intro d' hd'
        simp only [create_document, List.mem_append, List.mem_singleton] at hd'
        rcases hd' with hd' | hd'
        · exact h1 d' hd'
        · rw [hd']
          exact h2 c (List.mem_cons_self _ _) _

/-- The same preservation through the whole seed-if-empty block, for any
fault schedule. -/
theorem runSeed_docs {f : SeedFaults} {st : Store} (P : Dict → Prop)
    (h1 : ∀ d ∈ st.documents, P d)
    (h2 : ∀ c ∈ _demo_comics, ∀ s, P (Dict.set c "_id" (PyVal.vOid s))) :
    ∀ d ∈ (runSeed f st).documents, P d := by
  unfold runSeed
  by_cases hc : f.countRaises
  · rw [if_pos hc]
    exact h1
  · rw [if_neg hc]
    by_cases h0 : count_documents st == 0
    · rw [if_pos h0]
      exact seedLoop_docs P _demo_comics 0 st h1 h2
    · rw [if_neg h0]
      exact h1

/-- Every demo record, once extended with a store-assigned identifier,
serializes and validates back into a response. -/
theorem demo_seeded_renderable :
    ∀ c ∈ _demo_comics, ∀ s : String,
      ∃ r, ComicResponse.ofDict (serialize_document (Dict.set c "_id" (PyVal.vOid s)))
        = Except.ok r := by
  intro c hc s
  fin_cases hc <;> exact ⟨_, rfl⟩

/-- Seeding an empty collection with no faults inserts exactly the demo
records, each carrying a fresh store identifier. -/
theorem runSeed_empty_restores (n : Nat) :
    ((runSeed SeedFaults.none ⟨[], n⟩).documents).map (fun d => Dict.pop d "_id")
      = _demo_comics := rfl

/-- `convertTimestamp` on a present value renders it in place. -/
theorem convertTimestamp_get?_self (d : Dict) (k : String) {v : PyVal}
    (h : d.get? k = some v) :
    (convertTimestamp d k).get? k
      = some (if v.hasIsoformat then v.isoformat else v) := by
  unfold convertTimestamp
  rw [h]
  by_cases hiso : v.hasIsoformat
  · simp [hiso, Dict.get?_set_self]
  · simp [hiso, h]

/-- `serialize_document` unfolded, in the presence of a native id. -/
theorem serialize_document_of_id {doc : Dict} {w : PyVal}
    (hid : doc.get? "_id" = some w) :
    serialize_document doc
      = convertTimestamp (convertTimestamp
          ((doc.pop "_id").set "id" (PyVal.vStr w.pyStr)) "created_at") "updated_at" := by
  simp only [serialize_document]
  rw [hid]

/-- `serialize_document` unfolded, in the absence of a native id. -/
theorem serialize_document_of_no_id {doc : Dict}
    (hid : doc.get? "_id" = Option.none) :
    serialize_document doc
      = convertTimestamp (convertTimestamp doc "created_at") "updated_at" := by
  simp only [serialize_document]
  rw [hid]

/-! ## The claims -/

/-- C1: the claim says a well-formed but non-existent identifier yields a
404 distinct from the 400 validation error.  The handler body indeed
raises `HTTPException(404, "Comic not found")`, but that raise sits inside
the `try` block whose `except Exception` clause re-raises 400
"Invalid comic id", so the client observes 400 for both malformed and
missing identifiers: the code conflates not-found with the validation
error, against its own 404 construction. -/
theorem C1_notfound_conflated_with_invalid_id :
    validObjectId "507f1f77bcf86cd799439011" = true ∧
    find_one ⟨[], 0⟩ "507f1f77bcf86cd799439011" = Option.none ∧
    get_comic_tryBody ⟨[], 0⟩ "507f1f77bcf86cd799439011"
      = Except.error (Exn.http 404 "Comic not found") ∧
    get_comic (some ⟨[], 0⟩) "507f1f77bcf86cd799439011"
      = HttpResult.error 400 "Invalid comic id" ∧
    get_comic (some ⟨[], 0⟩) "not-an-objectid"
      = HttpResult.error 400 "Invalid comic id" :=
  ⟨rfl, rfl, rfl, rfl, rfl⟩

/-- A store document carrying a `created_at` timestamp, used to probe
the serialization pipeline. -/
def tsDoc : Dict :=
  [ ("_id", PyVal.vOid "507f1f77bcf86cd799439011"),
    ("title", PyVal.vStr "T"),
    ("author", PyVal.vStr "A"),
    ("genre", PyVal.vStr "G"),
    ("created_at", PyVal.vDatetime "2024-01-01T00:00:00") ]

/-- The response the store document `tsDoc` produces. -/
def tsDocResponse : ComicResponse :=
  ⟨"507f1f77bcf86cd799439011", "T", "A", "G",
    Option.none, Option.none, Option.none, Option.none⟩

/-- C2 counterexample: a store document with a `created_at` timestamp is
returned by `GET /api/comics/507f1f77bcf86cd799439011`, the timestamp is
rendered to ISO-8601 by `serialize_document` — and then dropped, because
`ComicResponse` has no such field: it does not appear in the JSON
response, contradicting the claim. -/
theorem C2_counterexample :
    Dict.get? tsDoc "created_at" = some (PyVal.vDatetime "2024-01-01T00:00:00") ∧
    Dict.get? (serialize_document tsDoc) "created_at"
      = some (PyVal.vStr "2024-01-01T00:00:00") ∧
    get_comic (some ⟨[tsDoc], 0⟩) "507f1f77bcf86cd799439011"
      = HttpResult.ok tsDocResponse.toDict ∧
    Dict.hasKey tsDocResponse.toDict "created_at" = false :=
  ⟨rfl, rfl, rfl, rfl⟩

/-- C2 (amended): `serialize_document` renders each present timestamp as
an ISO-8601 string when it supports the conversion (else passes it
through) and renames the native identifier to `id`, stringified — but the
timestamps are then dropped from the JSON response, whose keys are
exactly the `ComicResponse` fields. -/
theorem C2_timestamps_converted_but_dropped (doc : Dict) (r : ComicResponse) :
    (∀ v, Dict.get? doc "created_at" = some v →
        Dict.get? (serialize_document doc) "created_at"
          = some (if v.hasIsoformat then v.isoformat else v)) ∧
    (∀ v, Dict.get? doc "updated_at" = some v →
        Dict.get? (serialize_document doc) "updated_at"
          = some (if v.hasIsoformat then v.isoformat else v)) ∧
    (∀ v, Dict.get? doc "_id" = some v →
        Dict.get? (serialize_document doc) "id" = some (PyVal.vStr v.pyStr)) ∧
    (ComicResponse.ofDict (serialize_document doc) = Except.ok r →
        Dict.keys r.toDict = ["id", "title", "author", "genre", "description",
          "cover_url", "rating", "tags"] ∧
        Dict.hasKey r.toDict "created_at" = false ∧
        Dict.hasKey r.toDict "updated_at" = false ∧
        Dict.get? r.toDict "id" = some (PyVal.vStr r.id)) := by
  have hmidc : ∀ v, ∀ mid : Dict, mid.get? "created_at" = some v →
      (convertTimestamp (convertTimestamp mid "created_at") "updated_at").get? "created_at"
        = some (if v.hasIsoformat then v.isoformat else v) := by
    intro v mid hm
    rw [convertTimestamp_get?_ne _ (by decide)]
    exact convertTimestamp_get?_self mid "created_at" hm
  have hmidu : ∀ v, ∀ mid : Dict, mid.get? "updated_at" = some v →
      (convertTimestamp (convertTimestamp mid "created_at") "updated_at").get? "updated_at"
        = some (if v.hasIsoformat then v.isoformat else v) := by
    intro v mid hm
    refine convertTimestamp_get?_self _ "updated_at" ?_
    rw [convertTimestamp_get?_ne _ (by decide)]
    exact hm
  refine ⟨?_, ?_, ?_, fun _ => ⟨rfl, rfl, rfl, rfl⟩⟩
  · intro v hv
    cases hid : Dict.get? doc "_id" with
    | none =>
        rw [serialize_document_of_no_id hid]
        exact hmidc v doc hv
    | some w =>
        rw [serialize_document_of_id hid]
        refine hmidc v _ ?_
        rw [Dict.get?_set_ne _ _ (by decide), Dict.get?_pop_ne _ (by decide)]
        exact hv
  · intro v hv
    cases hid : Dict.get? doc "_id" with
    | none =>
        rw [serialize_document_of_no_id hid]
        exact hmidu v doc hv
    | some w =>
        rw [serialize_document_of_id hid]
        refine hmidu v _ ?_
        rw [Dict.get?_set_ne _ _ (by decide), Dict.get?_pop_ne _ (by decide)]
        exact hv
  · intro v hv
    rw [serialize_document_of_id hv, convertTimestamp_get?_ne _ (by decide),
      convertTimestamp_get?_ne _ (by decide)]
    exact Dict.get?_set_self _ "id" _

/-- Witness for the amended C2: the conversion and the dropping, observed
on the concrete document `tsDoc`. -/
theorem C2_witness :
    Dict.get? (serialize_document tsDoc) "created_at"
      = some (PyVal.vStr "2024-01-01T00:00:00") ∧
    Dict.hasKey tsDocResponse.toDict "created_at" = false := by
  refine ⟨?_, ?_⟩
  · exact (C2_timestamps_converted_but_dropped tsDoc tsDocResponse).1
      (PyVal.vDatetime "2024-01-01T00:00:00") rfl
  · exact ((C2_timestamps_converted_but_dropped tsDoc tsDocResponse).2.2.2 rfl).2.1

/-- C3: every `limit` in `[1, 100]` caps the response length; a `limit`
outside the range is rejected by validation, not clamped; an omitted
`limit` defaults to 24. -/
theorem C3_limit_validated_not_clamped (db : Option Store) (f : SeedFaults)
    (q g : Option String) :
    (∀ L : Int, 1 ≤ L → L ≤ 100 → ∀ body,
        (list_comics_endpoint db f q g (some L)).1 = HttpResult.ok body →
        (body.length : Int) ≤ L) ∧
    (∀ L : Int, L < 1 ∨ 100 < L →
        (list_comics_endpoint db f q g (some L)).1
          = HttpResult.error 422 "limit out of range") ∧
    list_comics_endpoint db f q g Option.none = list_comics db f q g 24 := by
  refine ⟨?_, ?_, rfl⟩
  · intro L h1 h2 body hb
    simp only [list_comics_endpoint, validateLimit, if_pos (And.intro h1 h2)] at hb
    have := list_comics_body_length hb
    omega
  · intro L hL
    have hno : ¬(1 ≤ L ∧ L ≤ 100) := by omega
    simp only [list_comics_endpoint, validateLimit, if_neg hno]

/-- Witness for C3 at the concrete limits 24 (in range) and 101
(rejected). -/
theorem C3_witness :
    (((_demo_comics.take 24).length : Int) ≤ 24) ∧
    (list_comics_endpoint Option.none SeedFaults.none Option.none Option.none
        (some 101)).1 = HttpResult.error 422 "limit out of range" := by
  refine ⟨?_, ?_⟩
  · exact (C3_limit_validated_not_clamped Option.none SeedFaults.none
      Option.none Option.none).1 24 (by decide) (by decide) (_demo_comics.take 24) rfl
  · exact (C3_limit_validated_not_clamped Option.none SeedFaults.none
      Option.none Option.none).2.1 101 (Or.inr (by decide))

/-- C4: with the store handle at the unavailable sentinel, the list
endpoint answers exactly the first `limit` demo records, in the demo
list's order, whatever `q` and `genre` (and whatever the fault schedule —
no store call happens), with no error surfaced and no store touched. -/
theorem C4_demo_fallback_ignores_filters (f : SeedFaults) (q genre : Option String)
    (limit : Nat) :
    list_comics Option.none f q genre limit
      = (HttpResult.ok (_demo_comics.take limit), Option.none) :=
  list_comics_demo f q genre limit

/-- C5: on an available store with an empty `comic` collection, one list
request seeds all demo records (the resulting collection, stripped of the
store-assigned identifiers, is exactly the demo list), and under any
fault schedule for the seeding block the error is absorbed: the read
still answers 200 on whatever state the collection ends up in. -/
theorem C5_seed_if_empty_errors_absorbed (st : Store) (f : SeedFaults)
    (q g : Option String) (L : Nat) (h : st.documents = []) :
    (∃ st', (list_comics (some st) SeedFaults.none q g L).2 = some st' ∧
        st'.documents.map (fun d => Dict.pop d "_id") = _demo_comics) ∧
    (list_comics (some st) f q g L).1.isOk = true := by
  obtain ⟨docs, n⟩ := st
  simp only at h
  subst h
  constructor
  · refine ⟨runSeed SeedFaults.none ⟨[], n⟩, ?_, runSeed_empty_restores n⟩
    simp only [list_comics]
    cases hr : renderAll ((get_documents (runSeed SeedFaults.none ⟨[], n⟩)
        (buildFilter q g) L).map serialize_document) <;> rfl
  · have hP : ∀ d ∈ (runSeed f ⟨[], n⟩).documents,
        ∃ r, ComicResponse.ofDict (serialize_document d) = Except.ok r :=
      runSeed_docs _ (by intro d hd; cases hd) demo_seeded_renderable
    have hall : ∀ c ∈ (get_documents (runSeed f ⟨[], n⟩)
        (buildFilter q g) L).map serialize_document,
        ∃ r, ComicResponse.ofDict c = Except.ok r := by
      intro c hc
      rcases List.mem_map.mp hc with ⟨d, hd, rfl⟩
      have hdf : d ∈ (runSeed f ⟨[], n⟩).documents := by
        have h1 : d ∈ (runSeed f ⟨[], n⟩).documents.filter
            (matchesFilt (buildFilter q g)) := (List.take_sublist _ _).subset hd
        exact (List.mem_filter.mp h1).1
      exact hP d hdf
    rcases renderAll_isOk hall with ⟨b, hb⟩
    simp only [list_comics]
    rw [hb]
    rfl

/-- Witness for C5 on the empty store. -/
theorem C5_witness :
    (∃ st', (list_comics (some ⟨[], 0⟩) SeedFaults.none Option.none Option.none 24).2
        = some st' ∧
        st'.documents.map (fun d => Dict.pop d "_id") = _demo_comics) ∧
    (list_comics (some ⟨[], 0⟩) SeedFaults.none Option.none Option.none 24).1.isOk
      = true :=
  C5_seed_if_empty_errors_absorbed ⟨[], 0⟩ SeedFaults.none Option.none Option.none 24 rfl

/-- A body missing a required field fails `ComicCreate` validation. -/
theorem ComicCreate.ofDict_error_of_missing {body : Dict}
    (h : Dict.get? body "title" = Option.none ∨
      Dict.get? body "author" = Option.none ∨
      Dict.get? body "genre" = Option.none) :
    ∃ e, ComicCreate.ofDict body = Except.error e := by
  unfold ComicCreate.ofDict
  rcases h with h | h | h
  · rw [ComicResponse.reqStr_missing h]
    exact ⟨_, rfl⟩
  · cases h1 : ComicResponse.reqStr body "title" with
    | error e => exact ⟨e, rfl⟩
    | ok t =>
        rw [ComicResponse.reqStr_missing h]
        exact ⟨_, rfl⟩
  · cases h1 : ComicResponse.reqStr body "title" with
    | error e => exact ⟨e, rfl⟩
    | ok t =>
        cases h2 : ComicResponse.reqStr body "author" with
        | error e => exact ⟨e, rfl⟩
        | ok a =>
            rw [ComicResponse.reqStr_missing h]
            exact ⟨_, rfl⟩

/-- C6: a create request missing `title`, `author` or `genre` fails
validation with a client error, and the store handle comes back
untouched — no `create_document` call is reached. -/
theorem C6_missing_field_rejected_no_write (db : Option Store) (body : Dict)
    (h : Dict.get? body "title" = Option.none ∨
      Dict.get? body "author" = Option.none ∨
      Dict.get? body "genre" = Option.none) :
    ∃ e, create_comic_endpoint db body = (HttpResult.error 422 e, db) := by
  rcases ComicCreate.ofDict_error_of_missing h with ⟨e, he⟩
  refine ⟨e, ?_⟩
  unfold create_comic_endpoint
  rw [he]

/-- Witness for C6: a body without `title`. -/
theorem C6_witness :
    ∃ e, create_comic_endpoint Option.none
        [("author", PyVal.vStr "A. Sterling"), ("genre", PyVal.vStr "Sci-Fi")]
      = (HttpResult.error 422 e, Option.none) :=
  C6_missing_field_rejected_no_write Option.none _ (Or.inl rfl)

/-- C7 counterexample: the claim quantifies over every POST request, but
a request whose body fails schema validation is rejected with the 422
validation error before the handler's store check runs — the empty body
with the store unavailable yields 422, not the claimed 503. -/
theorem C7_counterexample :
    (create_comic_endpoint Option.none []).1
      = HttpResult.error 422 "title: field required" ∧
    ¬∃ d, (create_comic_endpoint Option.none []).1 = HttpResult.error 503 d := by
  refine ⟨rfl, ?_⟩
  rintro ⟨d, hd⟩
  rw [show (create_comic_endpoint Option.none []).1
      = HttpResult.error 422 "title: field required" from rfl] at hd
  injection hd with h1 h2
  exact absurd h1 (by decide)

/-- C7 (amended): for every request whose body passes the write schema,
the unavailable store yields exactly the 503 service-unavailable error
with no demo fallback, while an available store answers exactly
`\x7b"id": <new id>\x7d` with the store-assigned identifier, the document
appended. -/
theorem C7_write_gate_on_store (body : Dict) (p : ComicCreate) (st : Store)
    (h : ComicCreate.ofDict body = Except.ok p) :
    create_comic_endpoint Option.none body
      = (HttpResult.error 503 "Database not available", Option.none) ∧
    create_comic_endpoint (some st) body
      = (HttpResult.ok [("id", PyVal.vStr (freshOid st.nextOid))],
          some ⟨st.documents ++
            [Dict.set p.toDict "_id" (PyVal.vOid (freshOid st.nextOid))],
            st.nextOid + 1⟩) := by
  constructor
  · unfold create_comic_endpoint
    rw [h]
    rfl
  · unfold create_comic_endpoint
    rw [h]
    rfl

/-- Witness for the amended C7 at a concrete valid body. -/
theorem C7_witness :
    create_comic_endpoint Option.none
        (ComicCreate.toDict ⟨"T", "A", "G", Option.none, Option.none, Option.none,
          Option.none⟩)
      = (HttpResult.error 503 "Database not available", Option.none) ∧
    create_comic_endpoint (some ⟨[], 0⟩)
        (ComicCreate.toDict ⟨"T", "A", "G", Option.none, Option.none, Option.none,
          Option.none⟩)
      = (HttpResult.ok [("id", PyVal.vStr (freshOid 0))],
          some ⟨[Dict.set (ComicCreate.toDict ⟨"T", "A", "G", Option.none,
            Option.none, Option.none, Option.none⟩) "_id" (PyVal.vOid (freshOid 0))],
            1⟩) :=
  C7_write_gate_on_store _
    ⟨"T", "A", "G", Option.none, Option.none, Option.none, Option.none⟩ ⟨[], 0⟩ rfl

/-- With a non-empty `q`, the filter starts with the case-insensitive
title condition, whatever `genre` adds. -/
theorem buildFilter_q_head (qs : String) (hq : qs ≠ "") (g : Option String) :
    ∃ rest, buildFilter (some qs) g
      = ("title", PyVal.vDict [("$regex", PyVal.vStr qs), ("$options", PyVal.vStr "i")])
        :: rest := by
  unfold buildFilter
  cases g with
  | none => exact ⟨[], by simp [hq, Dict.set]⟩
  | some s =>
      by_cases hs : s = ""
      · exact ⟨[], by simp [hq, hs, Dict.set]⟩
      · exact ⟨[("genre", PyVal.vStr s)], by simp [hq, hs, Dict.set]⟩

/-- A document matching a filter led by the title-regex condition has a
string title containing the pattern case-insensitively. -/
theorem matchesFilt_title {pat : String} {rest d : Dict}
    (h : matchesFilt
        (("title", PyVal.vDict [("$regex", PyVal.vStr pat), ("$options", PyVal.vStr "i")])
          :: rest) d = true) :
    ∃ s, Dict.get? d "title" = some (PyVal.vStr s) ∧ containsCI s pat = true := by
  unfold matchesFilt at h
  rw [List.all_cons, Bool.and_eq_true] at h
  have h1 := h.1
  simp only [matchesCond, Dict.get?] at h1
  cases hg : Dict.get? d "title" with
  | none => rw [hg] at h1; cases h1
  | some v =>
      rw [hg] at h1
      cases v with
      | vStr s => exact ⟨s, rfl, h1⟩
      | vNum x => cases h1
      | vNone => cases h1
      | vList x => cases h1
      | vDict x => cases h1
      | vOid x => cases h1
      | vDatetime x => cases h1
      | vOpaque x => cases h1

/-- C8: the list handler builds the case-insensitive title condition for
the supplied `q` (plus an exact `genre` condition when one is supplied)
and hands it to `get_documents`, so every record of a successful
`q=Arcane` response has a title containing "Arcane" case-insensitively. -/
theorem C8_title_filter_restricts_response :
    buildFilter (some "Arcane") Option.none
      = [("title", PyVal.vDict [("$regex", PyVal.vStr "Arcane"),
          ("$options", PyVal.vStr "i")])] ∧
    (∀ g : String, g ≠ "" → buildFilter (some "Arcane") (some g)
      = [("title", PyVal.vDict [("$regex", PyVal.vStr "Arcane"),
          ("$options", PyVal.vStr "i")]),
         ("genre", PyVal.vStr g)]) ∧
    (∀ (st : Store) (f : SeedFaults) (g : Option String) (L : Nat)
        (body : List Dict),
      (list_comics (some st) f (some "Arcane") g L).1 = HttpResult.ok body →
      ∀ b ∈ body, ∃ s, Dict.get? b "title" = some (PyVal.vStr s) ∧
        containsCI s "Arcane" = true) := by
  refine ⟨rfl, ?_, ?_⟩
  · intro g hg
    simp [buildFilter, hg, Dict.set]
  · intro st f g L body hb b hbmem
    simp only [list_comics] at hb
    cases hr : renderAll ((get_documents (runSeed f st)
        (buildFilter (some "Arcane") g) L).map serialize_document) with
    | error e => rw [hr] at hb; cases hb
    | ok bb =>
        rw [hr] at hb
        have hbody : bb = body := by
          have : HttpResult.ok (α := List Dict) bb = HttpResult.ok body := hb
          injection this
        subst hbody
        rcases renderAll_mem hr b hbmem with ⟨c, hc, r, hcr, rfl⟩
        rcases List.mem_map.mp hc with ⟨d, hd, rfl⟩
        have hdf : d ∈ (runSeed f st).documents.filter
            (matchesFilt (buildFilter (some "Arcane") g)) :=
          (List.take_sublist _ _).subset hd
        have hm : matchesFilt (buildFilter (some "Arcane") g) d = true :=
          (List.mem_filter.mp hdf).2
        rcases buildFilter_q_head "Arcane" (by decide) g with ⟨rest, hbf⟩
        rw [hbf] at hm
        rcases matchesFilt_title hm with ⟨s, hs, hci⟩
        have hser : Dict.get? (serialize_document d) "title"
            = some (PyVal.vStr s) := by
          rw [serialize_document_get?_other d (by decide) (by decide) (by decide)
            (by decide)]
          exact hs
        have heq : some (PyVal.vStr s) = some (PyVal.vStr r.title) :=
          hser.symm.trans (ComicResponse.ofDict_title hcr)
        have hst : s = r.title := by
          injection heq with heq1
          injection heq1
        refine ⟨r.title, rfl, ?_⟩
        rw [← hst]
        exact hci

/-- A store document whose title contains "Arcane". -/
def arcaneDoc : Dict :=
  [ ("_id", PyVal.vOid "aaaaaaaaaaaaaaaaaaaaaaaa"),
    ("title", PyVal.vStr "Arcane Academy"),
    ("author", PyVal.vStr "M. Kato"),
    ("genre", PyVal.vStr "Fantasy") ]

/-- The response `arcaneDoc` serializes to. -/
def arcaneResponse : ComicResponse :=
  ⟨"aaaaaaaaaaaaaaaaaaaaaaaa", "Arcane Academy", "M. Kato", "Fantasy",
    Option.none, Option.none, Option.none, Option.none⟩

/-- Witness for C8 on a one-document store. -/
theorem C8_witness :
    ∃ s, Dict.get? arcaneResponse.toDict "title" = some (PyVal.vStr s) ∧
      containsCI s "Arcane" = true := by
  refine C8_title_filter_restricts_response.2.2 ⟨[arcaneDoc], 0⟩ SeedFaults.none
    Option.none 24 [arcaneResponse.toDict] rfl arcaneResponse.toDict ?_
  exact List.mem_singleton.mpr rfl

/-- C9: the demo dataset has exactly 4 records, so with the store
unavailable every valid `limit` yields exactly `min limit 4` records —
shorter than `limit` whenever `limit > 4`. -/
theorem C9_demo_dataset_has_four (f : SeedFaults) (q g : Option String) :
    _demo_comics.length = 4 ∧
    ∀ L : Int, 1 ≤ L → L ≤ 100 →
      (list_comics_endpoint Option.none f q g (some L)).1
        = HttpResult.ok (_demo_comics.take L.toNat) ∧
      (_demo_comics.take L.toNat).length = min L.toNat 4 := by
  refine ⟨rfl, ?_⟩
  intro L h1 h2
  constructor
  · simp only [list_comics_endpoint, validateLimit, if_pos (And.intro h1 h2)]
    rw [list_comics_demo]
  · rw [List.length_take]
    rfl

/-- Witness for C9 at the limit 100: only 4 records come back. -/
theorem C9_witness :
    (list_comics_endpoint Option.none SeedFaults.none Option.none Option.none
        (some 100)).1 = HttpResult.ok (_demo_comics.take (Int.toNat 100)) ∧
    (_demo_comics.take (Int.toNat 100)).length = min (Int.toNat 100) 4 :=
  (C9_demo_dataset_has_four SeedFaults.none Option.none Option.none).2 100
    (by decide) (by decide)

/-- Reading the first cell of a two-cell heap. -/
theorem Heap.read_two_zero (a b : Dict) : Heap.read [a, b] 0 = a := rfl

/-- Reading the second cell of a two-cell heap. -/
theorem Heap.read_two_one (a b : Dict) : Heap.read [a, b] 1 = b := rfl

/-- Reading a one-cell heap. -/
theorem Heap.read_one (a : Dict) : Heap.read [a] 0 = a := rfl

/-- Writing the second cell of a two-cell heap. -/
theorem Heap.write_two_one (a b c : Dict) : Heap.write [a, b] 1 c = [a, c] := rfl

/-- Allocating on a one-cell heap. -/
theorem Heap.alloc_one (a b : Dict) : Heap.alloc [a] b = ([a, b], 1) := rfl

/-- Replaying `serialize_document` over the heap: the argument cell is
left intact and the result cell holds the value-level serialization. -/
theorem serialize_document_heap_run (doc : Dict) :
    serialize_document_heap [doc] 0 = ([doc, serialize_document doc], 1) := by
  cases hid : doc.get? "_id" with
  | none =>
      rw [serialize_document_of_no_id hid]
      simp only [serialize_document_heap, Heap.alloc_one, Heap.read_one,
        Heap.read_two_one, Heap.write_two_one, hid]
  | some v =>
      rw [serialize_document_of_id hid]
      simp only [serialize_document_heap, Heap.alloc_one, Heap.read_one,
        Heap.read_two_one, Heap.write_two_one, hid]

/-- C10: `serialize_document` never mutates its input — it copies the
dict first, and every write lands on the copy — and its result carries no
`_id` key. -/
theorem C10_serialize_document_pure (doc : Dict) (h : (Dict.keys doc).Nodup) :
    Heap.read (serialize_document_heap [doc] 0).1 0 = doc ∧
    Heap.read (serialize_document_heap [doc] 0).1 (serialize_document_heap [doc] 0).2
      = serialize_document doc ∧
    Dict.hasKey (serialize_document doc) "_id" = false := by
  refine ⟨?_, ?_, ?_⟩
  · rw [serialize_document_heap_run doc]
    rfl
  · rw [serialize_document_heap_run doc]
    rfl
  · unfold Dict.hasKey
    cases hid : doc.get? "_id" with
    | none =>
        rw [serialize_document_of_no_id hid, convertTimestamp_get?_ne _ (by decide),
          convertTimestamp_get?_ne _ (by decide), hid]
        rfl
    | some v =>
        rw [serialize_document_of_id hid, convertTimestamp_get?_ne _ (by decide),
          convertTimestamp_get?_ne _ (by decide), Dict.get?_set_ne _ _ (by decide),
          Dict.get?_pop_self _ h]
        rfl

/-- Witness for C10 on the concrete document `tsDoc`. -/
theorem C10_witness :
    Heap.read (serialize_document_heap [tsDoc] 0).1 0 = tsDoc ∧
    Dict.hasKey (serialize_document tsDoc) "_id" = false := by
  have h := C10_serialize_document_pure tsDoc (by decide)
  exact ⟨h.1, h.2.2⟩

end Comics
